import Mathlib

/-!
Verification development for DomainReconX (src/script2.py).

The script probes a batch of domain names: it validates each raw string,
resolves DNS, attempts an HTTP GET over https then http, runs the probes
concurrently under a semaphore, and classifies each outcome.

External effects (DNS lookups via socket.gethostbyname and HTTP requests via
httpx) are modelled as oracles passed to the embedded functions: `dns` maps a
domain to `some ip` (successful resolution) or `none` (socket.gaierror), and
`http` maps a URL to the outcome of `client.get(url)` as discriminated by the
script's except clauses.  String normalisation is modelled for ASCII text
(Python's str.strip/str.lower agree with the model on ASCII input).

Line 51 calls `urllib.parse.urlparse`, which raises
`ValueError("Invalid IPv6 URL")` when the network location contains an
unbalanced bracket (for example the input `"http://[a"`), and no handler in
`check_website_status` catches it, so the exception escapes the per-domain
task and aborts the whole `asyncio.gather`.  The embedding keeps this error
path: `urlNetloc` and `normalizeDomain` return `Option String` with `none`
for the raised `ValueError`, `check_website_status` returns
`Option (ProbeResult × ProbeTrace)` with `none` for an uncaught exception,
and `gatherResults` yields no result list when any task raises.
-/

namespace DomainReconX

/-- ASCII whitespace stripped by Python `str.strip()`. -/
def isPySpace (c : Char) : Bool :=
  c = ' ' || c = '\t' || c = '\n' || c = '\r' || c = '\x0b' || c = '\x0c'

/-- Python `str.strip()` (ASCII whitespace): drop leading and trailing whitespace. -/
def pyStrip (s : String) : String :=
  String.mk (((s.data.dropWhile isPySpace).reverse.dropWhile isPySpace).reverse)

/-- Python `str.lower()` restricted to ASCII case mapping (`Char.toLower`). -/
def pyLower (s : String) : String :=
  String.mk (s.data.map Char.toLower)

/-- Prefix test on character lists (first argument is the candidate prefix). -/
def isPrefixOfChars : List Char → List Char → Bool
  | [], _ => true
  | _ :: _, [] => false
  | p :: ps, c :: cs => p = c && isPrefixOfChars ps cs

/-- Python `s.startswith(pre)`. -/
def strStartsWith (s pre : String) : Bool :=
  isPrefixOfChars pre.data s.data

/-- Model of `urllib.parse.urlparse(u).netloc` for a URL beginning with `http://` or
`https://`: CPython first removes every tab, carriage return and line feed
from the URL, takes the network location as the characters after the
`scheme://` prefix up to the first of `/`, `?` or `#`, and then raises
`ValueError("Invalid IPv6 URL")` — modelled as `none` — when the network
location contains a `[` without a `]` or a `]` without a `[`.  (CPython 3.11
and later additionally raise when a balanced bracket pair does not hold a
valid IPv6/IPvFuture address; such netlocs contain brackets and therefore
never satisfy `is_valid_domain`, so the theorems conditioned on a valid
domain are insensitive to that version difference.) -/
def urlNetloc (s : String) : Option String :=
  let cleaned := s.data.filter (fun c => !(c = '\t' || c = '\r' || c = '\n'))
  let afterScheme :=
    if strStartsWith (String.mk cleaned) "https://" then cleaned.drop 8
    else cleaned.drop 7
  let netloc := afterScheme.takeWhile (fun c => !(c = '/' || c = '?' || c = '#'))
  if (netloc.contains '[' && !netloc.contains ']')
      || (netloc.contains ']' && !netloc.contains '[') then none
  else some (String.mk netloc)

/-- Lines 49-52 of the script: `domain = domain.strip().lower()`, then if the
result starts with `http://` or `https://`, replace it by
`urlparse(domain).netloc`; `none` is the `ValueError` raised by `urlparse`. -/
def normalizeDomain (s : String) : Option String :=
  let d := pyLower (pyStrip s)
  if strStartsWith d "http://" || strStartsWith d "https://" then urlNetloc d
  else some d

/-- Character class `[a-zA-Z]` of the validation regex. -/
def isAlphaChar (c : Char) : Bool :=
  ('a' ≤ c && c ≤ 'z') || ('A' ≤ c && c ≤ 'Z')

/-- Character class `[a-zA-Z0-9]` of the validation regex. -/
def isAlnumChar (c : Char) : Bool :=
  isAlphaChar c || ('0' ≤ c && c ≤ '9')

/-- Character class `[a-zA-Z0-9\-]` of the validation regex. -/
def isLabelChar (c : Char) : Bool :=
  isAlnumChar c || c = '-'

/-- The words matched by `[a-zA-Z0-9]([a-zA-Z0-9\-]{0,61}[a-zA-Z0-9])?`: one
alphanumeric character, or 2 to 63 characters over alphanumerics and hyphens
whose first and last characters are alphanumeric. -/
def isLabel (l : List Char) : Bool :=
  0 < l.length && l.length ≤ 63 && l.all isLabelChar
    && isAlnumChar (l.headD '-') && isAlnumChar (l.getLastD '-')

/-- The words matched by `[a-zA-Z]{2,}`. -/
def isTld (l : List Char) : Bool :=
  2 ≤ l.length && l.all isAlphaChar

/-- Split a character list at every `'.'` (the separators are removed; a list
with no dot yields one part, and adjacent dots yield empty parts). -/
def splitOnDots : List Char → List (List Char)
  | [] => [[]]
  | c :: rest =>
    if c = '.' then [] :: splitOnDots rest
    else
      match splitOnDots rest with
      | [] => [[c]]
      | p :: ps => (c :: p) :: ps

/-- The language of the anchored regex body `([a-zA-Z0-9]([a-zA-Z0-9\-]{0,61}[a-zA-Z0-9])?\.)+[a-zA-Z]{2,}`.
Because `'.'` can occur neither inside a label nor inside the final
alphabetic atom, a word is in the language exactly when splitting it at its
dots yields at least two parts, every part but the last is a label, and the
last part is the `[a-zA-Z]{2,}` atom. -/
def matchesHostname (l : List Char) : Bool :=
  let parts := splitOnDots l
  2 ≤ parts.length && parts.dropLast.all isLabel && isTld (parts.getLastD [])

/-- Line 39-42 of the script, `is_valid_domain`:
`re.match(r"^([a-zA-Z0-9]([a-zA-Z0-9\-]{0,61}[a-zA-Z0-9])?\.)+[a-zA-Z]{2,}$", domain)`.
Python's `$` matches at the end of the string and also just before a line feed
that ends the string, so a word of the language followed by a final `'\n'`
also matches. -/
def is_valid_domain (s : String) : Bool :=
  matchesHostname s.data || (s.data.getLastD ' ' = '\n' && matchesHostname s.data.dropLast)

/-- The hostname grammar in the words of the specification (for comparison
with `is_valid_domain`): dot-separated labels of alphanumerics and internal
hyphens, 1 to 63 characters, no leading or trailing hyphen, and a final label
of at least 2 alphabetic characters. -/
def specLabelOk (l : List Char) : Bool :=
  1 ≤ l.length && l.length ≤ 63 && l.all isLabelChar
    && !(l.headD '-' = '-') && !(l.getLastD '-' = '-')

/-- The specification's hostname grammar over a whole string. -/
def specHostname (s : String) : Bool :=
  let parts := splitOnDots s.data
  2 ≤ parts.length && parts.dropLast.all specLabelOk && isTld (parts.getLastD [])

/-- Value of `http_status` in a result row: an integer status code or one of the three
sentinel strings `"Invalid Domain"`, `"DNS Not Resolving"`, `"Connection Failed"`. -/
inductive HStatus where
  | code : Int → HStatus
  | invalidDomain : HStatus
  | dnsNotResolving : HStatus
  | connectionFailed : HStatus
deriving DecidableEq

/-- The dictionary returned by `check_website_status`. -/
structure ProbeResult where
  dns_resolves : Bool
  ip_address : Option String
  http_status : HStatus
  final_url : Option String
  protocol : Option String
  error : Option String
deriving DecidableEq

/-- The transport errors caught by the except clauses that do not carry a
response: `httpx.TimeoutException`, `httpx.TooManyRedirects`,
`httpx.ConnectError` and the catch-all `Exception` (lines 80-85 and 96-97). -/
inductive TransportFailure where
  | timeout : TransportFailure
  | tooManyRedirects : TransportFailure
  | connectError : TransportFailure
  | otherError : String → TransportFailure
deriving DecidableEq

/-- Outcome of one `client.get(url)` call, as discriminated by the script:
a response object, an `httpx.HTTPStatusError` carrying a response, or a
transport failure with no response. -/
inductive HttpOutcome where
  | response : Int → String → HttpOutcome
  | httpStatusError : Int → String → String → HttpOutcome
  | failure : TransportFailure → HttpOutcome
deriving DecidableEq

/-- The error strings assigned in the except clauses, with `TIMEOUT = 10` and
`MAX_REDIRECTS = 5` substituted as the f-strings do. -/
def transportErrorMessage (protocol : String) : TransportFailure → String
  | .timeout => "Timeout after 10s"
  | .tooManyRedirects => "Too many redirects (>=5)"
  | .connectError => "Connection refused on " ++ protocol
  | .otherError msg => "Error: " ++ msg

/-- The dictionary returned on lines 47 and 55 for an invalid input. -/
def invalidDomainResult : ProbeResult :=
  ⟨false, none, .invalidDomain, none, none, some "Invalid domain format"⟩

/-- The dictionary returned on line 59 when DNS resolution fails. -/
def dnsFailResult : ProbeResult :=
  ⟨false, none, .dnsNotResolving, none, none, some "DNS resolution failed"⟩

/-- Lines 31-37, `resolve_dns`: `socket.gethostbyname` returns an address or
raises `socket.gaierror`; the function maps these to `(True, ip)` and
`(False, None)`. -/
def resolve_dns (dns : String → Option String) (domain : String) :
    Bool × Option String :=
  match dns domain with
  | some ip => (true, some ip)
  | none => (false, none)

/-- The URL built on line 63: `f"{protocol}://{domain}"`. -/
def probeUrl (protocol domain : String) : String :=
  protocol ++ "://" ++ domain

/-- Lines 61-106: the `for protocol in protocols` loop.  For each protocol the
URL `protocol + "://" + domain` is requested once; a response or an
`HTTPStatusError` returns immediately, any other failure records its error
string and moves to the next protocol; when the list is exhausted the
`Connection Failed` dictionary is returned with the last recorded error.
The second component of the result lists the URLs actually requested. -/
def probeProtocols (ipAddr : Option String) (domain : String)
    (http : String → HttpOutcome) :
    List String → Option String → ProbeResult × List String
  | [], lastError => (⟨true, ipAddr, .connectionFailed, none, none, lastError⟩, [])
  | protocol :: rest, _lastError =>
    let url := probeUrl protocol domain
    match http url with
    | .response status finalUrl =>
        (⟨true, ipAddr, .code status, some finalUrl, some protocol, none⟩, [url])
    | .httpStatusError status u msg =>
        (⟨true, ipAddr, .code status, some u, some protocol, some msg⟩, [url])
    | .failure f =>
        let next :=
          probeProtocols ipAddr domain http rest
            (some (transportErrorMessage protocol f))
        (next.1, url :: next.2)

/-- The domains the pipeline consulted DNS for and the URLs it requested. -/
structure ProbeTrace where
  dnsQueries : List String
  httpRequests : List String
deriving DecidableEq

/-- Lines 44-106, `check_website_status`.  The input is `none` for a
non-string value and `some raw` for a string; `none` and the empty string fail
the `if not domain or not isinstance(domain, str)` guard.  The outer `Option`
is the exceptional control flow: `none` when line 51's `urlparse` raises its
`ValueError`, which no handler in the function catches; otherwise `some` of
the returned dictionary together with the trace of DNS and HTTP
consultations. -/
def check_website_status (input : Option String) (dns : String → Option String)
    (http : String → HttpOutcome) : Option (ProbeResult × ProbeTrace) :=
  match input with
  | none => some (invalidDomainResult, ⟨[], []⟩)
  | some raw =>
    if raw = "" then some (invalidDomainResult, ⟨[], []⟩)
    else
      match normalizeDomain raw with
      | none => none
      | some domain =>
        if !is_valid_domain domain then some (invalidDomainResult, ⟨[], []⟩)
        else
          match resolve_dns dns domain with
          | (false, _) => some (dnsFailResult, ⟨[domain], []⟩)
          | (true, ipAddr) =>
            let r := probeProtocols ipAddr domain http ["https", "http"] none
            some (r.1, ⟨[domain], r.2⟩)

/-- Lines 149-158, `classify_status`, as a function of the two row fields it
reads.  An integer status is bucketed by range; any sentinel (and any
out-of-range integer) falls to the final return. -/
def classify_status (dnsResolves : Bool) (httpStatus : HStatus) : String :=
  if !dnsResolves then "Inactive (DNS not resolving)"
  else
    match httpStatus with
    | .code n =>
      if 200 ≤ n && n < 400 then "Active"
      else if 400 ≤ n && n < 500 then "Client Error"
      else if 500 ≤ n && n < 600 then "Server Error"
      else "Inactive (Connection Failed)"
    | _ => "Inactive (Connection Failed)"

/-- The per-task outcome as a function of the task's index, as in
`process_batch` wrapping `check_website_status` (lines 108-111, 132-135):
`none` when the task raises. -/
def taskResult (domains : List String) (dns : String → Option String)
    (http : String → HttpOutcome) (i : Nat) : Option ProbeResult :=
  (check_website_status (domains.get? i) dns http).map Prod.fst

/-- Result slots of `asyncio.gather`: each completing task writes its own slot,
in completion order; a raising task never fills its slot. -/
def fillSlots (f : Nat → Option ProbeResult) :
    List Nat → (Nat → Option ProbeResult) → Nat → Option ProbeResult
  | [], slots => slots
  | i :: rest, slots =>
    fillSlots f rest (fun j => if j = i then f i else slots j)

/-- Lines 130-141: create one task per domain and `await asyncio.gather(*tasks)`.
`order` is the completion order of the tasks; `gather` returns the slot list
in task order only when every task has run and none has raised — a raised
exception is re-raised by `gather`, so no result list is produced. -/
def gatherResults (domains : List String) (dns : String → Option String)
    (http : String → HttpOutcome) (order : List Nat) :
    Option (List ProbeResult) :=
  let slots := fillSlots (taskResult domains dns http) order (fun _ => none)
  if (List.range domains.length).all (fun i => (slots i).isSome) then
    some ((List.range domains.length).map
      (fun i => (slots i).getD invalidDomainResult))
  else none

/-- Phase of one `process_batch` task with respect to the semaphore: waiting
to enter `async with semaphore`, running `check_website_status` inside it, or
finished (semaphore released). -/
inductive TaskPhase where
  | waiting : TaskPhase
  | running : TaskPhase
  | finished : TaskPhase
deriving DecidableEq

/-- Whether a task is inside the semaphore-guarded section. -/
def TaskPhase.isRunning : TaskPhase → Bool
  | .running => true
  | _ => false

/-- Scheduler state: the phase of each of the `n` tasks and the number of free
semaphore permits. -/
structure SchedulerState where
  tasks : List TaskPhase
  permits : Nat
deriving DecidableEq

/-- Line 130: `asyncio.Semaphore(MAX_CONCURRENT)` with all tasks created and
waiting; `c` permits are free. -/
def initialState (n c : Nat) : SchedulerState :=
  ⟨List.replicate n .waiting, c⟩

/-- Number of tasks currently executing inside the semaphore. -/
def inFlight (s : SchedulerState) : Nat :=
  s.tasks.countP TaskPhase.isRunning

/-- One scheduler transition, modelling `asyncio.Semaphore` as used by
`process_batch` (line 110): a waiting task may enter the guarded section only
when a permit is free, consuming it; a running task may finish, releasing its
permit. -/
inductive SchedStep : SchedulerState → SchedulerState → Prop where
  | acquire (s : SchedulerState) (i : Nat)
      (h : s.tasks.get? i = some .waiting) (hp : 0 < s.permits) :
      SchedStep s ⟨s.tasks.set i .running, s.permits - 1⟩
  | release (s : SchedulerState) (i : Nat)
      (h : s.tasks.get? i = some .running) :
      SchedStep s ⟨s.tasks.set i .finished, s.permits + 1⟩

/-- States reachable from the initial state of a run with `n` tasks and
concurrency bound `c`. -/
def Reachable (n c : Nat) (s : SchedulerState) : Prop :=
  Relation.ReflTransGen SchedStep (initialState n c) s

/-! ### Helper lemmas about the validation grammar -/

theorem splitOnDots_ne_nil : ∀ l : List Char, splitOnDots l ≠ []
  | [] => by simp [splitOnDots]
  | c :: rest => by
    unfold splitOnDots
    by_cases hc : c = '.'
    · simp [hc]
    · rw [if_neg hc]
      cases h : splitOnDots rest <;> simp

theorem mem_splitOnDots (c : Char) :
    ∀ l : List Char, c ∈ l → c ≠ '.' → ∃ p, p ∈ splitOnDots l ∧ c ∈ p
  | [], h, _ => absurd h (List.not_mem_nil c)
  | a :: rest, h, hne => by
    unfold splitOnDots
    by_cases ha : a = '.'
    · have hcr : c ∈ rest := by
        rcases List.mem_cons.1 h with h1 | h1
        · exact absurd (h1.trans ha) hne
        · exact h1
      rcases mem_splitOnDots c rest hcr hne with ⟨p, hp, hcp⟩
      refine ⟨p, ?_, hcp⟩
      rw [if_pos ha]
      exact List.mem_cons_of_mem _ hp
    · rw [if_neg ha]
      cases hsp : splitOnDots rest with
      | nil => exact absurd hsp (splitOnDots_ne_nil rest)
      | cons p0 ps =>
        rcases List.mem_cons.1 h with h1 | h1
        · exact ⟨a :: p0, List.mem_cons_self _ _, by rw [h1]; exact List.mem_cons_self a p0⟩
        · rcases mem_splitOnDots c rest h1 hne with ⟨q, hq, hcq⟩
          rw [hsp] at hq
          rcases List.mem_cons.1 hq with h2 | h2
          · refine ⟨a :: p0, List.mem_cons_self _ _, ?_⟩
            rw [← h2]
            exact List.mem_cons_of_mem a hcq
          · exact ⟨q, List.mem_cons_of_mem _ h2, hcq⟩

theorem mem_of_getLast?_eq {α : Type} :
    ∀ (l : List α) (c : α), l.getLast? = some c → c ∈ l
  | [], _, h => by simp at h
  | [a], c, h => by
    simp at h
    simp [h]
  | a :: b :: t, c, h => by
    rw [List.getLast?_cons_cons] at h
    exact List.mem_cons_of_mem a (mem_of_getLast?_eq (b :: t) c h)

theorem getLastD_mem_of_ne_nil {α : Type} (l : List α) (d : α) (hne : l ≠ []) :
    l.getLastD d ∈ l := by
  rw [List.getLastD_eq_getLast?]
  cases h : l.getLast? with
  | none => exact absurd (List.getLast?_eq_none_iff.1 h) hne
  | some c => simpa using mem_of_getLast?_eq l c h

theorem mem_dropLast_or_getLastD {α : Type} :
    ∀ (L : List α) (p : α) (d : α), p ∈ L → p ∈ L.dropLast ∨ L.getLastD d = p
  | [], p, d, h => absurd h (List.not_mem_nil p)
  | [x], p, d, h => by
    rcases List.mem_singleton.1 h with rfl
    exact Or.inr rfl
  | x :: y :: rest, p, d, h => by
    rcases List.mem_cons.1 h with h1 | h1
    · exact Or.inl (by rw [List.dropLast_cons₂, h1]; exact List.mem_cons_self x _)
    · rcases mem_dropLast_or_getLastD (y :: rest) p x h1 with h2 | h2
      · exact Or.inl (by rw [List.dropLast_cons₂]; exact List.mem_cons_of_mem x h2)
      · exact Or.inr (by rw [List.getLastD_cons]; exact h2)

theorem matchesHostname_eq_false_of_bad (l : List Char) (c : Char) (hc : c ∈ l)
    (h1 : isLabelChar c = false) (h2 : isAlphaChar c = false) (hne : c ≠ '.') :
    matchesHostname l = false := by
  rcases mem_splitOnDots c l hc hne with ⟨p, hp, hcp⟩
  simp only [matchesHostname]
  rcases mem_dropLast_or_getLastD (splitOnDots l) p [] hp with h | h
  · have hlab : isLabel p = false := by
      cases hall : p.all isLabelChar with
      | false => simp [isLabel, hall]
      | true => exact absurd (List.all_eq_true.1 hall c hcp) (by simp [h1])
    have hfa : (splitOnDots l).dropLast.all isLabel = false := by
      cases hall : (splitOnDots l).dropLast.all isLabel with
      | false => rfl
      | true => exact absurd (List.all_eq_true.1 hall p h) (by simp [hlab])
    simp [hfa]
  · have htld : isTld ((splitOnDots l).getLastD []) = false := by
      rw [h]
      cases hall : p.all isAlphaChar with
      | false => simp [isTld, hall]
      | true => exact absurd (List.all_eq_true.1 hall c hcp) (by simp [h2])
    rw [htld]
    simp

/-! ### The normalized domain never ends in a line feed, so the `$`-before-newline
case of `re.match` is unreachable through `check_website_status`. -/

theorem head?_dropWhile_false {α : Type} (p : α → Bool) :
    ∀ (l : List α) (c : α), (l.dropWhile p).head? = some c → p c = false
  | [], _, h => by simp at h
  | x :: xs, c, h => by
    rw [List.dropWhile_cons] at h
    by_cases hx : p x = true
    · rw [if_pos hx] at h
      exact head?_dropWhile_false p xs c h
    · rw [if_neg hx] at h
      simp at h
      rw [← h]
      cases hpx : p x with
      | false => rfl
      | true => exact absurd hpx hx

theorem mem_of_mem_takeWhile {α : Type} (p : α → Bool) :
    ∀ (l : List α) (a : α), a ∈ l.takeWhile p → a ∈ l
  | [], _, h => by simp [List.takeWhile] at h
  | x :: xs, a, h => by
    rw [List.takeWhile_cons] at h
    by_cases hx : p x = true
    · rw [if_pos hx] at h
      rcases List.mem_cons.1 h with h1 | h1
      · rw [h1]; exact List.mem_cons_self x xs
      · exact List.mem_cons_of_mem x (mem_of_mem_takeWhile p xs a h1)
    · rw [if_neg hx] at h
      cases h

theorem pyStrip_getLast?_not_space (s : String) (c : Char)
    (h : (pyStrip s).data.getLast? = some c) : isPySpace c = false := by
  unfold pyStrip at h
  have h3 :=
    List.head?_reverse ((s.data.dropWhile isPySpace).reverse.dropWhile isPySpace).reverse
  rw [List.reverse_reverse] at h3
  exact head?_dropWhile_false isPySpace _ c (h3.trans h)

theorem toLower_ne_newline (c : Char) (h : isPySpace c = false) :
    Char.toLower c ≠ '\n' := by
  intro heq
  simp only [Char.toLower] at heq
  by_cases hr : c.toNat ≥ 65 ∧ c.toNat ≤ 90
  · rw [if_pos hr] at heq
    have hv : Nat.isValidChar (c.toNat + 32) := Or.inl (by omega)
    have hofn : (Char.ofNat (c.toNat + 32)).toNat = c.toNat + 32 := by
      simp [Char.ofNat, hv]
      rfl
    rw [heq] at hofn
    have h10 : Char.toNat '\n' = 10 := rfl
    rw [h10] at hofn
    omega
  · rw [if_neg hr] at heq
    rw [heq] at h
    exact absurd h (by decide)

theorem pyLower_getLast?_ne_newline (s : String) (c : Char)
    (h : (pyLower (pyStrip s)).data.getLast? = some c) : c ≠ '\n' := by
  unfold pyLower at h
  rw [List.getLast?_map] at h
  cases h0 : (pyStrip s).data.getLast? with
  | none => rw [h0] at h; simp at h
  | some c0 =>
    rw [h0] at h
    simp at h
    rw [← h]
    exact toLower_ne_newline c0 (pyStrip_getLast?_not_space s c0 h0)

theorem urlNetloc_getLast?_ne_newline (s t : String) (c : Char)
    (hn : urlNetloc s = some t) (h : t.data.getLast? = some c) : c ≠ '\n' := by
  simp only [urlNetloc] at hn
  have hmem3 : c ∈ s.data.filter (fun x => !(x = '\t' || x = '\r' || x = '\n')) := by
    split at hn
    · split at hn
      · exact Option.noConfusion hn
      · have ht := Option.some_inj.1 hn
        rw [← ht] at h
        have hmem := mem_of_getLast?_eq _ c h
        exact List.mem_of_mem_drop (mem_of_mem_takeWhile _ _ c hmem)
    · split at hn
      · exact Option.noConfusion hn
      · have ht := Option.some_inj.1 hn
        rw [← ht] at h
        have hmem := mem_of_getLast?_eq _ c h
        exact List.mem_of_mem_drop (mem_of_mem_takeWhile _ _ c hmem)
  have hp := List.of_mem_filter hmem3
  intro hc
  rw [hc] at hp
  simp at hp

theorem normalizeDomain_getLast?_ne_newline (s t : String) (c : Char)
    (hn : normalizeDomain s = some t) (h : t.data.getLast? = some c) : c ≠ '\n' := by
  simp only [normalizeDomain] at hn
  split at hn
  · exact urlNetloc_getLast?_ne_newline _ t c hn h
  · have ht := Option.some_inj.1 hn
    rw [← ht] at h
    exact pyLower_getLast?_ne_newline s c h

theorem is_valid_domain_normalize (s t : String) (hn : normalizeDomain s = some t) :
    is_valid_domain t = matchesHostname t.data := by
  have hq : decide (t.data.getLastD ' ' = '\n') = false := by
    cases h0 : t.data.getLast? with
    | none =>
      rw [List.getLastD_eq_getLast?, h0]
      decide
    | some c =>
      have hne := normalizeDomain_getLast?_ne_newline s t c hn h0
      rw [List.getLastD_eq_getLast?, h0]
      simpa using hne
  unfold is_valid_domain
  rw [hq]
  simp

/-! ### `is_valid_domain` agrees with the grammar as worded in the specification -/

theorem isAlnumChar_eq_not_hyphen (c : Char) (h : isLabelChar c = true) :
    isAlnumChar c = !(decide (c = '-')) := by
  by_cases hc : c = '-'
  · rw [hc]
    decide
  · have hcd : decide (c = '-') = false := by simpa using hc
    rw [hcd, Bool.not_false]
    have h9 : isAlnumChar c = true ∨ c = '-' := by simpa [isLabelChar] using h
    rcases h9 with h1 | h1
    · exact h1
    · exact absurd h1 hc

theorem isLabel_eq_specLabelOk (l : List Char) : isLabel l = specLabelOk l := by
  cases l with
  | nil => decide
  | cons x xs =>
    cases hall : (x :: xs).all isLabelChar with
    | false => simp [isLabel, specLabelOk, hall]
    | true =>
      have hx : isLabelChar x = true := List.all_eq_true.1 hall x (List.mem_cons_self x xs)
      have hlast : isLabelChar ((x :: xs).getLastD '-') = true :=
        List.all_eq_true.1 hall _ (getLastD_mem_of_ne_nil (x :: xs) '-' (by simp))
      have e1 := isAlnumChar_eq_not_hyphen x hx
      have e2 := isAlnumChar_eq_not_hyphen _ hlast
      rw [List.getLastD_eq_getLast?] at e2
      simp [isLabel, specLabelOk, hall, e1, e2]

theorem matchesHostname_eq_specHostname (s : String) :
    matchesHostname s.data = specHostname s := by
  unfold matchesHostname specHostname
  rw [funext isLabel_eq_specLabelOk]

theorem is_valid_domain_eq_specHostname (s t : String)
    (hn : normalizeDomain s = some t) :
    is_valid_domain t = specHostname t := by
  rw [is_valid_domain_normalize s t hn, matchesHostname_eq_specHostname]

/-! ### Unfolding lemmas for `check_website_status` -/

theorem check_raises (raw : String) (dns : String → Option String)
    (http : String → HttpOutcome) (hr : raw ≠ "")
    (hn : normalizeDomain raw = none) :
    check_website_status (some raw) dns http = none := by
  simp [check_website_status, hr, hn]

theorem check_not_valid (raw d : String) (dns : String → Option String)
    (http : String → HttpOutcome)
    (hn : normalizeDomain raw = some d)
    (h : is_valid_domain d = false) :
    check_website_status (some raw) dns http
      = some (invalidDomainResult, ⟨[], []⟩) := by
  by_cases hr : raw = ""
  · rw [hr]
    rfl
  · simp [check_website_status, hr, hn, h]

theorem check_dns_none (raw d : String) (dns : String → Option String)
    (http : String → HttpOutcome) (hr : raw ≠ "")
    (hn : normalizeDomain raw = some d)
    (hv : is_valid_domain d = true)
    (hdns : dns d = none) :
    check_website_status (some raw) dns http
      = some (dnsFailResult, ⟨[d], []⟩) := by
  simp [check_website_status, hr, hn, hv, resolve_dns, hdns]

theorem check_dns_some (raw d : String) (dns : String → Option String)
    (http : String → HttpOutcome) (ip : String) (hr : raw ≠ "")
    (hn : normalizeDomain raw = some d)
    (hv : is_valid_domain d = true)
    (hdns : dns d = some ip) :
    check_website_status (some raw) dns http
      = some ((probeProtocols (some ip) d http ["https", "http"] none).1,
         ⟨[d], (probeProtocols (some ip) d http ["https", "http"] none).2⟩) := by
  simp [check_website_status, hr, hn, hv, resolve_dns, hdns]

/-- Exhaustive shape analysis of `check_website_status`: every run falls in
one of eight cases — invalid input, DNS failure, https response, https
error-with-response, http response after an https transport failure, http
error-with-response after an https transport failure, both protocols
failing, or the escaping `ValueError` of `urlparse` (no result at all). -/
theorem check_website_status_cases (input : Option String)
    (dns : String → Option String) (http : String → HttpOutcome) :
    check_website_status input dns http = some (invalidDomainResult, ⟨[], []⟩)
    ∨ (∃ d, dns d = none ∧
        check_website_status input dns http = some (dnsFailResult, ⟨[d], []⟩))
    ∨ (∃ d ip st fu, dns d = some ip ∧ http (probeUrl "https" d) = .response st fu ∧
        check_website_status input dns http =
          some (⟨true, some ip, .code st, some fu, some "https", none⟩,
           ⟨[d], [probeUrl "https" d]⟩))
    ∨ (∃ d ip st fu msg, dns d = some ip ∧
        http (probeUrl "https" d) = .httpStatusError st fu msg ∧
        check_website_status input dns http =
          some (⟨true, some ip, .code st, some fu, some "https", some msg⟩,
           ⟨[d], [probeUrl "https" d]⟩))
    ∨ (∃ d ip f st fu, dns d = some ip ∧ http (probeUrl "https" d) = .failure f ∧
        http (probeUrl "http" d) = .response st fu ∧
        check_website_status input dns http =
          some (⟨true, some ip, .code st, some fu, some "http", none⟩,
           ⟨[d], [probeUrl "https" d, probeUrl "http" d]⟩))
    ∨ (∃ d ip f st fu msg, dns d = some ip ∧ http (probeUrl "https" d) = .failure f ∧
        http (probeUrl "http" d) = .httpStatusError st fu msg ∧
        check_website_status input dns http =
          some (⟨true, some ip, .code st, some fu, some "http", some msg⟩,
           ⟨[d], [probeUrl "https" d, probeUrl "http" d]⟩))
    ∨ (∃ d ip f g, dns d = some ip ∧ http (probeUrl "https" d) = .failure f ∧
        http (probeUrl "http" d) = .failure g ∧
        check_website_status input dns http =
          some (⟨true, some ip, .connectionFailed, none, none,
            some (transportErrorMessage "http" g)⟩,
           ⟨[d], [probeUrl "https" d, probeUrl "http" d]⟩))
    ∨ check_website_status input dns http = none := by
  cases input with
  | none => exact Or.inl rfl
  | some raw =>
    by_cases hr : raw = ""
    · exact Or.inl (by rw [hr]; rfl)
    · cases hn : normalizeDomain raw with
      | none =>
        exact Or.inr (Or.inr (Or.inr (Or.inr (Or.inr (Or.inr (Or.inr
          (check_raises raw dns http hr hn)))))))
      | some d =>
        by_cases hv : is_valid_domain d = true
        · cases hdns : dns d with
          | none =>
            exact Or.inr (Or.inl
              ⟨d, hdns, check_dns_none raw d dns http hr hn hv hdns⟩)
          | some ip =>
            have hc := check_dns_some raw d dns http ip hr hn hv hdns
            cases h1 : http (probeUrl "https" d) with
            | response st fu =>
              refine Or.inr (Or.inr (Or.inl ⟨d, ip, st, fu, hdns, h1, ?_⟩))
              rw [hc]
              simp [probeProtocols, h1]
            | httpStatusError st fu msg =>
              refine Or.inr (Or.inr (Or.inr (Or.inl
                ⟨d, ip, st, fu, msg, hdns, h1, ?_⟩)))
              rw [hc]
              simp [probeProtocols, h1]
            | failure f =>
              cases h2 : http (probeUrl "http" d) with
              | response st fu =>
                refine Or.inr (Or.inr (Or.inr (Or.inr (Or.inl
                  ⟨d, ip, f, st, fu, hdns, h1, h2, ?_⟩))))
                rw [hc]
                simp [probeProtocols, h1, h2]
              | httpStatusError st fu msg =>
                refine Or.inr (Or.inr (Or.inr (Or.inr (Or.inr (Or.inl
                  ⟨d, ip, f, st, fu, msg, hdns, h1, h2, ?_⟩)))))
                rw [hc]
                simp [probeProtocols, h1, h2]
              | failure g =>
                refine Or.inr (Or.inr (Or.inr (Or.inr (Or.inr (Or.inr (Or.inl
                  ⟨d, ip, f, g, hdns, h1, h2, ?_⟩))))))
                rw [hc]
                simp [probeProtocols, h1, h2]
        · exact Or.inl (check_not_valid raw d dns http hn (by simpa using hv))

/-! ### Scheduler lemmas -/

theorem fillSlots_apply (f : Nat → Option ProbeResult) :
    ∀ (order : List Nat) (slots : Nat → Option ProbeResult) (j : Nat),
      fillSlots f order slots j = if j ∈ order then f j else slots j
  | [], slots, j => by simp [fillSlots]
  | i :: rest, slots, j => by
    simp only [fillSlots]
    rw [fillSlots_apply f rest _ j]
    by_cases hj : j ∈ rest
    · simp [hj]
    · by_cases hji : j = i
      · simp [hj, hji]
      · simp [hj, hji]

theorem map_range_get? {α β : Type} (F : Option α → β) :
    ∀ l : List α,
      (List.range l.length).map (fun i => F (l.get? i)) = l.map (fun a => F (some a))
  | [] => by simp
  | a :: l => by
    rw [List.length_cons, List.range_succ_eq_map, List.map_cons, List.map_map,
      List.map_cons]
    congr 1
    have hcomp : ((fun i => F ((a :: l).get? i)) ∘ Nat.succ) = fun i => F (l.get? i) := by
      funext i
      rfl
    rw [hcomp, map_range_get? F l]

/-- When every task's index occurs in the completion order and no task
raises, `gather` returns exactly one result per input, in input order:
the ordering claim holds on every run the uncaught `ValueError` does not
abort. -/
theorem gatherResults_eq (domains : List String) (dns : String → Option String)
    (http : String → HttpOutcome) (order : List Nat)
    (hcov : ∀ i, i < domains.length → i ∈ order)
    (hok : ∀ i, i < domains.length → (taskResult domains dns http i).isSome = true) :
    gatherResults domains dns http order
      = some (domains.map (fun s =>
          ((check_website_status (some s) dns http).map Prod.fst).getD
            invalidDomainResult)) := by
  simp only [gatherResults]
  have hslot : ∀ i, i < domains.length →
      fillSlots (taskResult domains dns http) order (fun _ => none) i
        = taskResult domains dns http i := by
    intro i hi
    rw [fillSlots_apply]
    simp [hcov i hi]
  rw [if_pos]
  · congr 1
    rw [List.map_congr_left (fun i hi => by
      rw [hslot i (List.mem_range.1 hi)])]
    exact map_range_get?
      (fun o => ((check_website_status o dns http).map Prod.fst).getD
        invalidDomainResult) domains
  · rw [List.all_eq_true]
    intro i hi
    rw [hslot i (List.mem_range.1 hi)]
    exact hok i (List.mem_range.1 hi)

/-! ### Semaphore lemmas -/

theorem countP_set_balance {α : Type} (p : α → Bool) :
    ∀ (l : List α) (i : Nat) (a b : α), l.get? i = some b →
      (l.set i a).countP p + (if p b then 1 else 0)
        = l.countP p + (if p a then 1 else 0)
  | [], i, a, b, h => by simp at h
  | x :: xs, 0, a, b, h => by
    simp at h
    subst h
    by_cases hpa : p a = true <;> by_cases hpx : p x = true <;>
      simp [hpa, hpx, List.countP_cons]
  | x :: xs, i + 1, a, b, h => by
    have hrec := countP_set_balance p xs i a b (by simpa using h)
    have hset : (x :: xs).set (i + 1) a = x :: xs.set i a := rfl
    rw [hset]
    simp only [List.countP_cons]
    omega

theorem step_invariant (n c : Nat) (s t : SchedulerState) (hstep : SchedStep s t)
    (ih : inFlight s + s.permits = c ∧ s.tasks.length = n) :
    inFlight t + t.permits = c ∧ t.tasks.length = n := by
  rcases ih with ⟨ih1, ih2⟩
  cases hstep with
  | acquire i hi hp =>
    have hb := countP_set_balance TaskPhase.isRunning s.tasks i
      TaskPhase.running TaskPhase.waiting hi
    simp [TaskPhase.isRunning] at hb
    constructor
    · simp only [inFlight] at ih1 ⊢
      omega
    · simp only [List.length_set]
      exact ih2
  | release i hi =>
    have hb := countP_set_balance TaskPhase.isRunning s.tasks i
      TaskPhase.finished TaskPhase.running hi
    simp [TaskPhase.isRunning] at hb
    constructor
    · simp only [inFlight] at ih1 ⊢
      omega
    · simp only [List.length_set]
      exact ih2

theorem reachable_invariant (n c : Nat) (s : SchedulerState) (h : Reachable n c s) :
    inFlight s + s.permits = c ∧ s.tasks.length = n := by
  have h9 : Relation.ReflTransGen SchedStep (initialState n c) s := h
  clear h
  induction h9 with
  | refl =>
    constructor
    · have hz : (List.replicate n TaskPhase.waiting).countP TaskPhase.isRunning = 0 := by
        rw [List.countP_eq_zero]
        intro a ha
        rw [List.eq_of_mem_replicate ha]
        simp [TaskPhase.isRunning]
      simp [inFlight, initialState, hz]
    · simp [initialState]
  | tail hab hstep ih =>
    exact step_invariant n c _ _ hstep ih

/-! ### Claim theorems -/

/-- C1: `classify_status` is a pure total function of `(dns_resolves, http_status)`:
a false `dns_resolves` yields `Inactive (DNS not resolving)` regardless of the
status; otherwise an integer status in [200, 400) yields `Active`, in [400, 500)
`Client Error`, in [500, 600) `Server Error`, and any other value (a sentinel or
an out-of-range integer) yields `Inactive (Connection Failed)`; the boundary
values 200, 399, 400, 499, 500, 599 land in the stated buckets. -/
theorem classify_status_spec :
    (∀ st : HStatus, classify_status false st = "Inactive (DNS not resolving)")
    ∧ (∀ n : Int, 200 ≤ n → n < 400 → classify_status true (.code n) = "Active")
    ∧ (∀ n : Int, 400 ≤ n → n < 500 → classify_status true (.code n) = "Client Error")
    ∧ (∀ n : Int, 500 ≤ n → n < 600 → classify_status true (.code n) = "Server Error")
    ∧ (∀ n : Int, n < 200 ∨ 600 ≤ n →
        classify_status true (.code n) = "Inactive (Connection Failed)")
    ∧ (classify_status true .invalidDomain = "Inactive (Connection Failed)"
        ∧ classify_status true .dnsNotResolving = "Inactive (Connection Failed)"
        ∧ classify_status true .connectionFailed = "Inactive (Connection Failed)")
    ∧ (classify_status true (.code 200) = "Active"
        ∧ classify_status true (.code 399) = "Active"
        ∧ classify_status true (.code 400) = "Client Error"
        ∧ classify_status true (.code 499) = "Client Error"
        ∧ classify_status true (.code 500) = "Server Error"
        ∧ classify_status true (.code 599) = "Server Error") := by
  refine ⟨fun st => rfl, ?_, ?_, ?_, ?_, by decide, by decide⟩
  · intro n h1 h2
    have c1 : (decide (200 ≤ n) && decide (n < 400)) = true := by simp [h1, h2]
    simp [classify_status, c1]
  · intro n h1 h2
    have c1 : (decide (200 ≤ n) && decide (n < 400)) = false := by
      have hx : ¬ (n < 400) := by omega
      simp [hx]
    have c2 : (decide (400 ≤ n) && decide (n < 500)) = true := by simp [h1, h2]
    simp [classify_status, c1, c2]
  · intro n h1 h2
    have c1 : (decide (200 ≤ n) && decide (n < 400)) = false := by
      have hx : ¬ (n < 400) := by omega
      simp [hx]
    have c2 : (decide (400 ≤ n) && decide (n < 500)) = false := by
      have hx : ¬ (n < 500) := by omega
      simp [hx]
    have c3 : (decide (500 ≤ n) && decide (n < 600)) = true := by simp [h1, h2]
    simp [classify_status, c1, c2, c3]
  · intro n h
    have c1 : (decide (200 ≤ n) && decide (n < 400)) = false := by
      rcases h with h | h
      · have hx : ¬ (200 ≤ n) := by omega
        simp [hx]
      · have hx : ¬ (n < 400) := by omega
        simp [hx]
    have c2 : (decide (400 ≤ n) && decide (n < 500)) = false := by
      rcases h with h | h
      · have hx : ¬ (400 ≤ n) := by omega
        simp [hx]
      · have hx : ¬ (n < 500) := by omega
        simp [hx]
    have c3 : (decide (500 ≤ n) && decide (n < 600)) = false := by
      rcases h with h | h
      · have hx : ¬ (500 ≤ n) := by omega
        simp [hx]
      · have hx : ¬ (n < 600) := by omega
        simp [hx]
    simp [classify_status, c1, c2, c3]

/-- Witness for C1 at concrete status values. -/
theorem classify_status_spec_witness :
    classify_status false (.code 200) = "Inactive (DNS not resolving)"
    ∧ classify_status true (.code 250) = "Active"
    ∧ classify_status true (.code 404) = "Client Error"
    ∧ classify_status true (.code 503) = "Server Error"
    ∧ classify_status true (.code 700) = "Inactive (Connection Failed)" :=
  ⟨classify_status_spec.1 (.code 200),
   classify_status_spec.2.1 250 (by decide) (by decide),
   classify_status_spec.2.2.1 404 (by decide) (by decide),
   classify_status_spec.2.2.2.1 503 (by decide) (by decide),
   classify_status_spec.2.2.2.2.1 700 (Or.inr (by decide))⟩

/-- C2 (code bug): the scheduler does not always produce one result per
input.  On the single-domain batch `["http://[a"]`, with responsive DNS and
HTTP collaborators and a completion order covering every task, line 51's
`urlparse` raises `ValueError("Invalid IPv6 URL")` inside the task, nothing
in `check_website_status` catches it, `asyncio.gather` re-raises it, and no
result list is produced at all — zero results instead of one. -/
theorem gather_aborts_on_invalid_ipv6_url :
    ([0] : List Nat).Perm (List.range (["http://[a"] : List String).length)
    ∧ check_website_status (some "http://[a") (fun _ => some "93.184.216.34")
        (fun _ => .response 200 "https://example.com/") = none
    ∧ gatherResults ["http://[a"] (fun _ => some "93.184.216.34")
        (fun _ => .response 200 "https://example.com/") [0] = none :=
  ⟨by decide, rfl, rfl⟩

/-- C9: in every state reachable from a run of `n` tasks under a semaphore
with `c` permits, at most `c` tasks are inside the semaphore-guarded
network-I/O section. -/
theorem semaphore_concurrency_bound (n c : Nat) (s : SchedulerState)
    (h : Reachable n c s) : inFlight s ≤ c := by
  have hinv := reachable_invariant n c s h
  omega

/-- Witness for C9: with bound 2 and 10 tasks, the state where tasks 0 and 1
hold the semaphore is reachable, and its in-flight count is at most 2. -/
theorem semaphore_concurrency_bound_witness :
    inFlight ⟨TaskPhase.running :: TaskPhase.running ::
        List.replicate 8 TaskPhase.waiting, 0⟩ ≤ 2 := by
  apply semaphore_concurrency_bound 10 2
  have h1 : SchedStep (initialState 10 2)
      ⟨TaskPhase.running :: List.replicate 9 TaskPhase.waiting, 1⟩ :=
    SchedStep.acquire (initialState 10 2) 0 (by decide) (by decide)
  have h2 : SchedStep ⟨TaskPhase.running :: List.replicate 9 TaskPhase.waiting, 1⟩
      ⟨TaskPhase.running :: TaskPhase.running :: List.replicate 8 TaskPhase.waiting, 0⟩ :=
    SchedStep.acquire _ 1 (by decide) (by decide)
  exact Relation.ReflTransGen.tail (Relation.ReflTransGen.tail Relation.ReflTransGen.refl h1) h2

/-- C3: every result dictionary that `check_website_status` actually returns
satisfies the data-model invariant: `ip_address` is present exactly when
`dns_resolves`; a false `dns_resolves` carries the `Invalid Domain` or
`DNS Not Resolving` sentinel; a true `dns_resolves` carries an integer status
or the `Connection Failed` sentinel; `final_url` and `protocol` are present
together, and only when the recorded protocol's request actually produced a
response (a response object or an `HTTPStatusError` carrying one). -/
theorem probe_result_invariant (input : Option String) (dns : String → Option String)
    (http : String → HttpOutcome) (rt : ProbeResult × ProbeTrace)
    (hck : check_website_status input dns http = some rt) :
    (rt.1.ip_address.isSome = rt.1.dns_resolves)
    ∧ (rt.1.dns_resolves = false →
        rt.1.http_status = .invalidDomain ∨ rt.1.http_status = .dnsNotResolving)
    ∧ (rt.1.dns_resolves = true →
        (∃ n : Int, rt.1.http_status = .code n)
        ∨ rt.1.http_status = .connectionFailed)
    ∧ (rt.1.final_url.isSome ↔ rt.1.protocol.isSome)
    ∧ (∀ p, rt.1.protocol = some p →
        ∃ u ∈ rt.2.httpRequests,
          (∃ st fu, http u = .response st fu)
          ∨ (∃ st fu msg, http u = .httpStatusError st fu msg)) := by
  rcases check_website_status_cases input dns http with heq | ⟨d, hdns, heq⟩
    | ⟨d, ip, st, fu, hdns, h1, heq⟩ | ⟨d, ip, st, fu, msg, hdns, h1, heq⟩
    | ⟨d, ip, f, st, fu, hdns, h1, h2, heq⟩ | ⟨d, ip, f, st, fu, msg, hdns, h1, h2, heq⟩
    | ⟨d, ip, f, g, hdns, h1, h2, heq⟩ | heq <;> rw [heq] at hck
  · obtain rfl := Option.some_inj.1 hck
    refine ⟨rfl, fun _ => Or.inl rfl, ?_, Iff.rfl, ?_⟩
    · intro h
      simp [invalidDomainResult] at h
    · intro p hp
      simp [invalidDomainResult] at hp
  · obtain rfl := Option.some_inj.1 hck
    refine ⟨rfl, fun _ => Or.inr rfl, ?_, Iff.rfl, ?_⟩
    · intro h
      simp [dnsFailResult] at h
    · intro p hp
      simp [dnsFailResult] at hp
  · obtain rfl := Option.some_inj.1 hck
    refine ⟨rfl, ?_, fun _ => Or.inl ⟨st, rfl⟩, Iff.rfl, ?_⟩
    · intro h
      simp at h
    · intro p _
      exact ⟨probeUrl "https" d, List.mem_singleton.2 rfl, Or.inl ⟨st, fu, h1⟩⟩
  · obtain rfl := Option.some_inj.1 hck
    refine ⟨rfl, ?_, fun _ => Or.inl ⟨st, rfl⟩, Iff.rfl, ?_⟩
    · intro h
      simp at h
    · intro p _
      exact ⟨probeUrl "https" d, List.mem_singleton.2 rfl, Or.inr ⟨st, fu, msg, h1⟩⟩
  · obtain rfl := Option.some_inj.1 hck
    refine ⟨rfl, ?_, fun _ => Or.inl ⟨st, rfl⟩, Iff.rfl, ?_⟩
    · intro h
      simp at h
    · intro p _
      exact ⟨probeUrl "http" d,
        List.mem_cons_of_mem _ (List.mem_singleton.2 rfl), Or.inl ⟨st, fu, h2⟩⟩
  · obtain rfl := Option.some_inj.1 hck
    refine ⟨rfl, ?_, fun _ => Or.inl ⟨st, rfl⟩, Iff.rfl, ?_⟩
    · intro h
      simp at h
    · intro p _
      exact ⟨probeUrl "http" d,
        List.mem_cons_of_mem _ (List.mem_singleton.2 rfl), Or.inr ⟨st, fu, msg, h2⟩⟩
  · obtain rfl := Option.some_inj.1 hck
    refine ⟨rfl, ?_, fun _ => Or.inr rfl, Iff.rfl, ?_⟩
    · intro h
      simp at h
    · intro p hp
      simp at hp
  · exact Option.noConfusion hck

/-- Witness for C3: for a DNS-failing probe the false `dns_resolves` branch of
the invariant yields one of the two rejection sentinels. -/
theorem probe_result_invariant_witness :
    dnsFailResult.http_status = HStatus.invalidDomain
    ∨ dnsFailResult.http_status = HStatus.dnsNotResolving :=
  (probe_result_invariant (some "example.com") (fun _ => none)
      (fun _ => .failure .connectError)
      (dnsFailResult, ⟨["example.com"], []⟩) rfl).2.1 rfl

/-- C8 (code bug): `check_website_status` does not return a ProbeResult for
every string input — line 51's `urlparse` sits outside every try/except of
the function, and on `"http://[a"` its `ValueError` escapes as a
process-level failure instead of being converted into result fields, for any
behaviour of the DNS and HTTP collaborators chosen here. -/
theorem probe_raises_on_invalid_ipv6_url :
    check_website_status (some "http://[a") (fun _ => some "203.0.113.7")
        (fun _ => .failure .timeout) = none
    ∧ normalizeDomain "http://[a" = none :=
  ⟨rfl, rfl⟩

/-- C4: for a validated, resolving domain the prober tries `https` first and
`http` second, requesting each protocol's URL at most once; as soon as an
attempt yields a response it returns that outcome — a response gives the
status code, post-redirect final URL, the protocol used and a null error
(even when the earlier https attempt failed at transport level), an
`HTTPStatusError` gives the carried status, its URL, the protocol and the
error text — and the request trace shows the remaining protocol was never
tried. -/
theorem probe_protocol_order (raw d ip : String) (dns : String → Option String)
    (http : String → HttpOutcome) (hraw : raw ≠ "")
    (hnorm : normalizeDomain raw = some d) (hv : is_valid_domain d = true)
    (hdns : dns d = some ip) :
    (∀ st fu, http (probeUrl "https" d) = .response st fu →
      check_website_status (some raw) dns http
        = some (⟨true, some ip, .code st, some fu, some "https", none⟩,
           ⟨[d], [probeUrl "https" d]⟩))
    ∧ (∀ st fu msg, http (probeUrl "https" d) = .httpStatusError st fu msg →
      check_website_status (some raw) dns http
        = some (⟨true, some ip, .code st, some fu, some "https", some msg⟩,
           ⟨[d], [probeUrl "https" d]⟩))
    ∧ (∀ f st fu, http (probeUrl "https" d) = .failure f →
      http (probeUrl "http" d) = .response st fu →
      check_website_status (some raw) dns http
        = some (⟨true, some ip, .code st, some fu, some "http", none⟩,
           ⟨[d], [probeUrl "https" d, probeUrl "http" d]⟩))
    ∧ (∀ f st fu msg, http (probeUrl "https" d) = .failure f →
      http (probeUrl "http" d) = .httpStatusError st fu msg →
      check_website_status (some raw) dns http
        = some (⟨true, some ip, .code st, some fu, some "http", some msg⟩,
           ⟨[d], [probeUrl "https" d, probeUrl "http" d]⟩)) := by
  have hc := check_dns_some raw d dns http ip hraw hnorm hv hdns
  refine ⟨?_, ?_, ?_, ?_⟩
  · intro st fu h1
    rw [hc]
    simp [probeProtocols, h1]
  · intro st fu msg h1
    rw [hc]
    simp [probeProtocols, h1]
  · intro f st fu h1 h2
    rw [hc]
    simp [probeProtocols, h1, h2]
  · intro f st fu msg h1 h2
    rw [hc]
    simp [probeProtocols, h1, h2]

/-- Witness for C4: the https attempt times out, the http attempt succeeds
with 200, and the result carries `protocol="http"`, the status, the final URL
and a null error. -/
theorem probe_protocol_order_witness :
    check_website_status (some "example.com")
        (fun s => if s = "example.com" then some "93.184.216.34" else none)
        (fun u => if u = probeUrl "http" "example.com"
          then .response 200 "http://example.com/" else .failure .timeout)
      = some (⟨true, some "93.184.216.34", .code 200, some "http://example.com/",
          some "http", none⟩,
         ⟨["example.com"], [probeUrl "https" "example.com", probeUrl "http" "example.com"]⟩) :=
  (probe_protocol_order "example.com" "example.com" "93.184.216.34"
      (fun s => if s = "example.com" then some "93.184.216.34" else none)
      (fun u => if u = probeUrl "http" "example.com"
        then .response 200 "http://example.com/" else .failure .timeout)
      (by decide) rfl rfl rfl).2.2.1
    TransportFailure.timeout 200 "http://example.com/" rfl rfl

/-- C6: when both protocol attempts fail at transport level, the prober
returns the `Connection Failed` sentinel with null final URL and protocol and
the second (http) attempt's error description — the https attempt's error `f`
does not appear in the result. -/
theorem probe_connection_failed (raw d ip : String) (dns : String → Option String)
    (http : String → HttpOutcome) (f g : TransportFailure) (hraw : raw ≠ "")
    (hnorm : normalizeDomain raw = some d) (hv : is_valid_domain d = true)
    (hdns : dns d = some ip)
    (h1 : http (probeUrl "https" d) = .failure f)
    (h2 : http (probeUrl "http" d) = .failure g) :
    check_website_status (some raw) dns http
      = some (⟨true, some ip, .connectionFailed, none, none,
          some (transportErrorMessage "http" g)⟩,
         ⟨[d], [probeUrl "https" d, probeUrl "http" d]⟩) := by
  rw [check_dns_some raw d dns http ip hraw hnorm hv hdns]
  simp [probeProtocols, h1, h2]

/-- Witness for C6: https times out, http is refused; the error field holds
the http attempt's message, the https timeout is discarded. -/
theorem probe_connection_failed_witness :
    check_website_status (some "example.com")
        (fun s => if s = "example.com" then some "93.184.216.34" else none)
        (fun u => if u = probeUrl "https" "example.com"
          then .failure .timeout else .failure .connectError)
      = some (⟨true, some "93.184.216.34", .connectionFailed, none, none,
          some "Connection refused on http"⟩,
         ⟨["example.com"], [probeUrl "https" "example.com", probeUrl "http" "example.com"]⟩) :=
  probe_connection_failed "example.com" "example.com" "93.184.216.34"
    (fun s => if s = "example.com" then some "93.184.216.34" else none)
    (fun u => if u = probeUrl "https" "example.com"
      then .failure .timeout else .failure .connectError)
    TransportFailure.timeout TransportFailure.connectError
    (by decide) rfl rfl rfl rfl rfl

/-- C7: DNS failure for a validated domain is the normal `(False, None)`
outcome of `resolve_dns`, and the resulting dictionary has
`dns_resolves=False`, `ip_address=None`, the `DNS Not Resolving` sentinel,
and an empty HTTP request trace (no HTTP attempt is made). -/
theorem dns_failure_result (raw d : String) (dns : String → Option String)
    (http : String → HttpOutcome) (hraw : raw ≠ "")
    (hnorm : normalizeDomain raw = some d) (hv : is_valid_domain d = true)
    (hdns : dns d = none) :
    resolve_dns dns d = (false, none)
    ∧ check_website_status (some raw) dns http
        = some (dnsFailResult, ⟨[d], []⟩) := by
  constructor
  · simp [resolve_dns, hdns]
  · exact check_dns_none raw d dns http hraw hnorm hv hdns

/-- Witness for C7 on a concrete unresolvable domain. -/
theorem dns_failure_result_witness :
    resolve_dns (fun _ => none) "example.com" = (false, none)
    ∧ check_website_status (some "example.com") (fun _ => none)
        (fun _ => .failure .connectError)
        = some (dnsFailResult, ⟨["example.com"], []⟩) :=
  dns_failure_result "example.com" "example.com" (fun _ => none)
    (fun _ => .failure .connectError) (by decide) rfl rfl rfl

theorem mem_dropLast_of_ne_getLastD {α : Type} (l : List α) (c d : α)
    (hc : c ∈ l) (hne : l.getLastD d ≠ c) : c ∈ l.dropLast := by
  rcases mem_dropLast_or_getLastD l c d hc with h | h
  · exact h
  · exact absurd h hne

/-- A character that can occur neither in a label nor in the TLD atom (and is
not the dot separator or the trailing line feed tolerated by `$`) makes
`is_valid_domain` reject the string. -/
theorem is_valid_domain_eq_false_of_mem (s : String) (c : Char) (hc : c ∈ s.data)
    (hl : isLabelChar c = false) (ha : isAlphaChar c = false) (hdot : c ≠ '.')
    (hnl : c ≠ '\n') : is_valid_domain s = false := by
  have hm := matchesHostname_eq_false_of_bad s.data c hc hl ha hdot
  unfold is_valid_domain
  rw [hm]
  simp only [Bool.false_or]
  by_cases hlast : s.data.getLastD ' ' = '\n'
  · have hdrop : c ∈ s.data.dropLast := by
      apply mem_dropLast_of_ne_getLastD s.data c ' ' hc
      rw [hlast]
      exact fun hh => hnl hh.symm
    have hm2 := matchesHostname_eq_false_of_bad s.data.dropLast c hdrop hl ha hdot
    rw [hm2]
    simp
  · have hq : decide (s.data.getLastD ' ' = '\n') = false := by simpa using hlast
    rw [hq]
    simp

/-- C5 (code bug): the validator does not turn every grammar mismatch into
the `Invalid Domain` rejection result.  For the input `"http://[a"` the
would-be authority `"[a"` fails the hostname grammar (both as the regex reads
it and as the specification words it), but `urlparse` on line 51 raises
`ValueError("Invalid IPv6 URL")` before `is_valid_domain` ever runs, so the
pipeline produces no rejection result — it raises instead. -/
theorem validator_raises_on_invalid_ipv6_url :
    specHostname "[a" = false
    ∧ is_valid_domain "[a" = false
    ∧ normalizeDomain "http://[a" = none
    ∧ check_website_status (some "http://[a") (fun _ => none)
        (fun _ => .failure .connectError) = none :=
  ⟨rfl, rfl, rfl, rfl⟩

/-- C10 counterexample: `"HTTP://example.com/path"` contains a path component
and does not start with the literal `http://` or `https://`, yet the pipeline
does not reject it as Invalid Domain: the scheme test runs after
lower-casing, so the upper-case scheme is stripped and DNS resolution is
attempted for `example.com`. -/
theorem scheme_case_counterexample :
    strStartsWith "HTTP://example.com/path" "http://" = false
    ∧ strStartsWith "HTTP://example.com/path" "https://" = false
    ∧ '/' ∈ "HTTP://example.com/path".data
    ∧ check_website_status (some "HTTP://example.com/path") (fun _ => none)
        (fun _ => .failure .connectError)
        = some (dnsFailResult, ⟨["example.com"], []⟩)
    ∧ dnsFailResult.http_status ≠ HStatus.invalidDomain := by
  refine ⟨rfl, rfl, by decide, rfl, by decide⟩

/-- C10 as amended: for every input whose trimmed and lower-cased form does
not start with `http://` or `https://` and still contains a `'/'`, the
pipeline rejects it as Invalid Domain with no DNS query and no HTTP
request. -/
theorem scheme_less_path_rejected (raw : String) (dns : String → Option String)
    (http : String → HttpOutcome)
    (h1 : strStartsWith (pyLower (pyStrip raw)) "http://" = false)
    (h2 : strStartsWith (pyLower (pyStrip raw)) "https://" = false)
    (h3 : '/' ∈ (pyLower (pyStrip raw)).data) :
    check_website_status (some raw) dns http
      = some (invalidDomainResult, ⟨[], []⟩) := by
  have hnorm : normalizeDomain raw = some (pyLower (pyStrip raw)) := by
    simp only [normalizeDomain]
    rw [h1, h2]
    simp
  apply check_not_valid raw (pyLower (pyStrip raw)) dns http hnorm
  exact is_valid_domain_eq_false_of_mem (pyLower (pyStrip raw)) '/' h3
    (by decide) (by decide) (by decide) (by decide)

/-- Witness for the amended C10 on the scheme-less input `"example.com/path"`. -/
theorem scheme_less_path_rejected_witness :
    check_website_status (some "example.com/path") (fun _ => some "1.2.3.4")
        (fun _ => .response 200 "http://x/")
      = some (invalidDomainResult, ⟨[], []⟩) :=
  scheme_less_path_rejected "example.com/path" (fun _ => some "1.2.3.4")
    (fun _ => .response 200 "http://x/") rfl rfl (by decide)

end DomainReconX
